import Mathlib

/-!
Verification of the memcached binary-protocol server (Go sources under
`server/`): a shallow embedding of the byte codec (`utils.go`), the shared
key/value store with CAS tokens (`utils.go`), the request/response framing
(`server.go`) and the GET and SET/ADD/REPLACE command handlers
(`handlers.go`), together with theorems checking the specification's
claims against those definitions.

Machine integers are modelled as `Nat` with explicit truncation (`% 2 ^ w`)
exactly where the Go code performs a narrowing conversion; byte slices are
`List Nat` whose elements are `< 256` (carried as a hypothesis where
needed); Go strings, which the store uses as map keys, are the raw byte
lists themselves; the shared mutable state (`simplekvMap`, `casID`) is
passed explicitly as a `KVState`; functions that return a Go `error` become
`Except String`.
-/

namespace Memcached

/-- 2^8, the modulus of Go's `byte` / `uint8`. -/
def U8 : Nat := 2 ^ 8

/-- 2^16, the modulus of Go's `uint16`. -/
def U16 : Nat := 2 ^ 16

/-- 2^32, the modulus of Go's `uint32`. -/
def U32 : Nat := 2 ^ 32

/-- 2^64, the modulus of Go's `uint64`. -/
def U64 : Nat := 2 ^ 64

/-- `buf[i]` on a Go byte slice. All source reads are in range (the caller
has checked the lengths); out of range we default to 0. -/
def byteAt (buf : List Nat) (i : Nat) : Nat := buf.getD i 0

/-- `GetUint16` (utils.go): `uint16(buf[0])<<8 | uint16(buf[1])`. -/
def GetUint16 (buf : List Nat) : Nat :=
  byteAt buf 0 <<< 8 ||| byteAt buf 1

/-- `GetUint32` (utils.go): `uint32(GetUint16(buf))<<16 | uint32(GetUint16(buf[2:]))`. -/
def GetUint32 (buf : List Nat) : Nat :=
  GetUint16 buf <<< 16 ||| GetUint16 (buf.drop 2)

/-- `GetUint64` (utils.go): `uint64(GetUint32(buf))<<32 | uint64(GetUint32(buf[4:]))`. -/
def GetUint64 (buf : List Nat) : Nat :=
  GetUint32 buf <<< 32 ||| GetUint32 (buf.drop 4)

/-- `GetNthByteFromUint16` (utils.go): pos 0 is `byte(v >> 8)` (the `byte`
conversion truncates mod 2^8), otherwise `byte(v & 0x00ff)`. -/
def GetNthByteFromUint16 (v : Nat) (pos : Nat) : Nat :=
  if pos = 0 then (v >>> 8) % U8
  else v &&& 0x00ff

/-- `GetNthByteFromUint32` (utils.go): `l := uint16(v >> 16)`,
`r := uint16(v & 0x0000ffff)`, then the corresponding byte of `l` or `r`. -/
def GetNthByteFromUint32 (v : Nat) (pos : Nat) : Nat :=
  if pos = 0 then GetNthByteFromUint16 ((v >>> 16) % U16) 0
  else if pos = 1 then GetNthByteFromUint16 ((v >>> 16) % U16) 1
  else if pos = 2 then GetNthByteFromUint16 (v &&& 0x0000ffff) 0
  else GetNthByteFromUint16 (v &&& 0x0000ffff) 1

/-! ### The key/value store (`utils.go`)

`simplekvMap` / `casID` are process-wide mutable variables in the source;
here they form a `KVState` threaded through each primitive. Keys are the
raw bytes of the Go string. The reader-writer lock makes each primitive
atomic, so the sequential embedding is per-primitive; in particular the
re-lookup that `GetFromSimpleKV` performs after upgrading to the exclusive
lock sees the same map here. -/

/-- `SimpleValue` (utils.go): `RawData []byte`, `Flag uint32`, `CAS uint64`,
`TTL int`. `TTL` is a Go `int`, hence modelled as `Int`. -/
structure SimpleValue where
  RawData : List Nat
  Flag : Nat
  CAS : Nat
  TTL : Int
deriving DecidableEq

/-- The shared state: `simplekvMap` and the CAS counter `casID` (uint64). -/
structure KVState where
  simplekvMap : List Nat → Option SimpleValue
  casID : Nat

/-- The initial process state: empty map, `casID = 0`. -/
def initialState : KVState := { simplekvMap := fun _ => none, casID := 0 }

/-- Go `simplekvMap[key] = v`. -/
def mapInsert (m : List Nat → Option SimpleValue) (key : List Nat)
    (v : SimpleValue) : List Nat → Option SimpleValue :=
  fun k => if k = key then some v else m k

/-- Go `delete(simplekvMap, key)`. -/
def mapDelete (m : List Nat → Option SimpleValue) (key : List Nat) :
    List Nat → Option SimpleValue :=
  fun k => if k = key then none else m k

/-- The CAS allocation step shared by `AddToSimpleKV` and `SetToSimpleKV`:
`newVal.CAS = atomic.AddUint64(&casID, 1)` and, when the post-increment
value is 0, one more `atomic.AddUint64(&casID, 1)`. The returned value is
both the new counter and the stamped CAS. -/
def nextCasID (c : Nat) : Nat :=
  let c1 := (c + 1) % U64
  if c1 = 0 then (c1 + 1) % U64 else c1

/-- `GetFromSimpleKV` (utils.go): lookup under the shared lock; on a hit
whose `TTL` is nonzero and `< now` (the source compares against
`time.Now().Second()`, passed here as `now`), re-look up under the
exclusive lock, delete only if the CAS still equals the one observed, and
report a miss; a surviving entry with a different CAS is returned as the
hit. -/
def GetFromSimpleKV (s : KVState) (key : List Nat) (now : Int) :
    Option SimpleValue × KVState :=
  match s.simplekvMap key with
  | none => (none, s)
  | some val =>
    let cas := val.CAS
    if val.TTL ≠ 0 ∧ val.TTL < now then
      match s.simplekvMap key with
      | none => (none, s)
      | some val2 =>
        if val2.CAS = cas then
          (none, { s with simplekvMap := mapDelete s.simplekvMap key })
        else (some val2, s)
    else (some val, s)

/-- `AddToSimpleKV` (utils.go): fail if the key exists, otherwise stamp a
fresh CAS and insert. Result: ((stored value, success), new state). -/
def AddToSimpleKV (s : KVState) (key : List Nat) (newVal : SimpleValue) :
    (SimpleValue × Bool) × KVState :=
  match s.simplekvMap key with
  | some _ => ((newVal, false), s)
  | none =>
    let c := nextCasID s.casID
    let v := { newVal with CAS := c }
    ((v, true), { simplekvMap := mapInsert s.simplekvMap key v, casID := c })

/-- `SetToSimpleKV` (utils.go): replace fails when the key is absent; for a
present key a nonzero `cas` must match the current entry's CAS; otherwise
stamp a fresh CAS and store. Result: ((set value, key missing, success),
new state). -/
def SetToSimpleKV (s : KVState) (key : List Nat) (newVal : SimpleValue)
    (cas : Nat) (replace : Bool) : (SimpleValue × Bool × Bool) × KVState :=
  match s.simplekvMap key with
  | none =>
    if replace then ((newVal, true, false), s)
    else
      let c := nextCasID s.casID
      let v := { newVal with CAS := c }
      ((v, false, true),
        { simplekvMap := mapInsert s.simplekvMap key v, casID := c })
  | some oldVal =>
    if cas ≠ 0 ∧ cas ≠ oldVal.CAS then ((newVal, false, false), s)
    else
      let c := nextCasID s.casID
      let v := { newVal with CAS := c }
      ((v, false, true),
        { simplekvMap := mapInsert s.simplekvMap key v, casID := c })

/-! ### Protocol constants and headers (`server.go`) -/

def CodeNoError : Nat := 0x0000
def CodeKeyNotFound : Nat := 0x0001
def CodeKeyExists : Nat := 0x0002

def OpGet : Nat := 0x00
def OpSet : Nat := 0x01
def OpAdd : Nat := 0x02
def OpReplace : Nat := 0x03
def OpQuit : Nat := 0x07
def OpGetQ : Nat := 0x09
def OpNoOp : Nat := 0x0a
def OpVersion : Nat := 0x0b
def OpGetK : Nat := 0x0c
def OpGetKQ : Nat := 0x0d
def OpSetQ : Nat := 0x11
def OpAddQ : Nat := 0x12
def OpReplaceQ : Nat := 0x13

def MagicRequest : Nat := 0x80
def MagicResponse : Nat := 0x81

/-- `MaxReqLen` (server.go). -/
def MaxReqLen : Nat := 1024 * 1024 * 1024

/-- The keys of the `OpHandler` dispatch map (handlers.go), in the order of
the map literal. -/
def opHandlerKeys : List Nat :=
  [OpSet, OpSetQ, OpAdd, OpAddQ, OpReplace, OpReplaceQ,
   OpGet, OpGetQ, OpGetK, OpGetKQ, OpVersion, OpNoOp, OpQuit]

/-- `_, ok := OpHandler[opcode]` (server.go, parseRequestHeader). -/
def opcodeKnown (op : Nat) : Bool := opHandlerKeys.contains op

/-- `RequestHeader` (server.go). Field widths: Magic/Opcode/ExtraLength/
DataType uint8, KeyLength/VBucketID uint16, TotalBodyLength/Opaque uint32,
CAS uint64. -/
structure RequestHeader where
  Magic : Nat
  Opcode : Nat
  KeyLength : Nat
  ExtraLength : Nat
  DataType : Nat
  VBucketID : Nat
  TotalBodyLength : Nat
  Opaque : Nat
  CAS : Nat
deriving DecidableEq

/-- The Go field widths of `RequestHeader`, as bounds. -/
def RequestHeader.Wf (h : RequestHeader) : Prop :=
  h.Magic < U8 ∧ h.Opcode < U8 ∧ h.KeyLength < U16 ∧ h.ExtraLength < U8 ∧
  h.DataType < U8 ∧ h.VBucketID < U16 ∧ h.TotalBodyLength < U32 ∧
  h.Opaque < U32 ∧ h.CAS < U64

/-- `ResponseHeader` (server.go); same widths, `Status` is uint16. -/
structure ResponseHeader where
  Magic : Nat
  Opcode : Nat
  KeyLength : Nat
  ExtraLength : Nat
  DataType : Nat
  Status : Nat
  TotalBodyLength : Nat
  Opaque : Nat
  CAS : Nat
deriving DecidableEq

/-- The Go field widths of `ResponseHeader`, as bounds. -/
def ResponseHeader.Wf (h : ResponseHeader) : Prop :=
  h.Magic < U8 ∧ h.Opcode < U8 ∧ h.KeyLength < U16 ∧ h.ExtraLength < U8 ∧
  h.DataType < U8 ∧ h.Status < U16 ∧ h.TotalBodyLength < U32 ∧
  h.Opaque < U32 ∧ h.CAS < U64

/-- `parseRequestHeader` (server.go) on the 24 header bytes. The checks
appear in source order; on success every field is the big-endian decode of
its byte range. -/
def parseRequestHeader (buf : List Nat) : Except String RequestHeader :=
  let magic := byteAt buf 0
  if magic ≠ MagicRequest then .error "Magic byte is not 0x80" else
  let opcode := byteAt buf 1
  if ¬ opcodeKnown opcode then .error "Opcode byte is not recognized" else
  let keyLength := GetUint16 (buf.drop 2)
  let extraLength := byteAt buf 4
  let dataType := byteAt buf 5
  if dataType ≠ 0x00 then .error "DataType byte is supposed to be 0x00" else
  let vbucketID := GetUint16 (buf.drop 6)
  let totalBodyLength := GetUint32 (buf.drop 8)
  if totalBodyLength < keyLength + extraLength then
    .error "TotalBodyLength is supposed to be no less than KeyLength + ExtraLength"
  else
  let opq := GetUint32 (buf.drop 12)
  let cas := GetUint64 (buf.drop 16)
  .ok { Magic := magic, Opcode := opcode, KeyLength := keyLength,
        ExtraLength := extraLength, DataType := dataType,
        VBucketID := vbucketID, TotalBodyLength := totalBodyLength,
        Opaque := opq, CAS := cas }

/-- `writeResponseHeader` (server.go): the 24 bytes produced by the
sequence of `WriteByte` calls (the two 4-iteration loops per 32-bit field
unrolled); for the CAS, `l := uint32(CAS >> 32)` and
`r := uint32(CAS & 0x00000000ffffffff)`. -/
def writeResponseHeader (h : ResponseHeader) : List Nat :=
  [h.Magic, h.Opcode,
   GetNthByteFromUint16 h.KeyLength 0, GetNthByteFromUint16 h.KeyLength 1,
   h.ExtraLength, h.DataType,
   GetNthByteFromUint16 h.Status 0, GetNthByteFromUint16 h.Status 1,
   GetNthByteFromUint32 h.TotalBodyLength 0, GetNthByteFromUint32 h.TotalBodyLength 1,
   GetNthByteFromUint32 h.TotalBodyLength 2, GetNthByteFromUint32 h.TotalBodyLength 3,
   GetNthByteFromUint32 h.Opaque 0, GetNthByteFromUint32 h.Opaque 1,
   GetNthByteFromUint32 h.Opaque 2, GetNthByteFromUint32 h.Opaque 3,
   GetNthByteFromUint32 ((h.CAS >>> 32) % U32) 0,
   GetNthByteFromUint32 ((h.CAS >>> 32) % U32) 1,
   GetNthByteFromUint32 ((h.CAS >>> 32) % U32) 2,
   GetNthByteFromUint32 ((h.CAS >>> 32) % U32) 3,
   GetNthByteFromUint32 (h.CAS &&& 0x00000000ffffffff) 0,
   GetNthByteFromUint32 (h.CAS &&& 0x00000000ffffffff) 1,
   GetNthByteFromUint32 (h.CAS &&& 0x00000000ffffffff) 2,
   GetNthByteFromUint32 (h.CAS &&& 0x00000000ffffffff) 3]

/-! ### Command handlers (`handlers.go`)

The handlers validate the header, read the request body from the socket
into the connection's scratch buffer, call the store, and emit at most one
response. Socket reads/writes and the scratch-buffer growth are I/O local
to the connection and cannot fail for request sizes in the validated range,
so the embedding takes the body bytes as an argument and returns the
emitted response (`none` when the handler writes nothing) instead of
performing the writes. Validation failures (Go `error` returns, which
terminate the connection) become `Except.error`. -/

/-- The byte values of an ASCII string literal in the Go source. -/
def asciiBytes (s : String) : List Nat := s.data.map Char.toNat

/-- `"Not found"` (handlers.go). -/
def notFoundMsg : List Nat := asciiBytes "Not found"

/-- `"Data exists for key."` (handlers.go). -/
def dataExistsMsg : List Nat := asciiBytes "Data exists for key."

/-- A response: the header plus the body bytes written after it. -/
structure RespOut where
  header : ResponseHeader
  body : List Nat
deriving DecidableEq

/-- `GetHandler` (handlers.go). `key` is the body read from the wire
(`string(buf)` with `len(buf) = TotalBodyLength`), `now` is
`time.Now().Second()` at the lookup. -/
def GetHandler (header : RequestHeader) (key : List Nat) (now : Int)
    (s : KVState) : Except String (Option RespOut × KVState) :=
  if header.ExtraLength > 0 then .error "Get must NOT have ExtraLength"
  else if header.KeyLength = 0 then .error "Get must have NONE-ZERON KeyLength"
  else if header.TotalBodyLength ≠ header.KeyLength + header.ExtraLength then
    .error "Get must NOT have value"
  else
    match GetFromSimpleKV s key now with
    | (none, s1) =>
      if header.Opcode = OpGetQ ∨ header.Opcode = OpGetKQ then .ok (none, s1)
      else
        .ok (some {
          header := { Magic := MagicResponse, Opcode := header.Opcode,
                      KeyLength := 0, ExtraLength := 0, DataType := 0,
                      Status := CodeKeyNotFound,
                      TotalBodyLength := notFoundMsg.length,
                      Opaque := header.Opaque, CAS := 0 },
          body := notFoundMsg }, s1)
    | (some val, s1) =>
      let keyLenOut :=
        if header.Opcode = OpGetK ∨ header.Opcode = OpGetKQ
        then key.length % U16 else 0
      .ok (some {
        header := { Magic := MagicResponse, Opcode := header.Opcode,
                    KeyLength := keyLenOut, ExtraLength := 0x04, DataType := 0,
                    Status := CodeNoError,
                    TotalBodyLength :=
                      (val.RawData.length % U32 + 0x04 + keyLenOut) % U32,
                    Opaque := header.Opaque, CAS := val.CAS },
        body := [GetNthByteFromUint32 val.Flag 0, GetNthByteFromUint32 val.Flag 1,
                 GetNthByteFromUint32 val.Flag 2, GetNthByteFromUint32 val.Flag 3]
                ++ (if keyLenOut > 0 then key else []) ++ val.RawData }, s1)

/-- The body-parsing prefix of `SetHandler` (handlers.go): flag and raw TTL
from the first 8 body bytes, `ttl += time.Now().Second()` when positive,
key and copied value from the rest. -/
def parseSetBody (keyLength : Nat) (body : List Nat) (now : Int) :
    List Nat × SimpleValue :=
  let newFlag := GetUint32 body
  let ttl0 : Int := (GetUint32 (body.drop 4) : Nat)
  let ttl := if ttl0 > 0 then ttl0 + now else ttl0
  let key := (body.drop 8).take keyLength
  let value := body.drop (8 + keyLength)
  (key, { RawData := value, Flag := newFlag, CAS := 0, TTL := ttl })

/-- The failure response of `SetHandler` (handlers.go, `output:` block with
`shouldFail`): status `responseCode`, the fixed ASCII body, `CAS = 0`. -/
def setFailResp (header : RequestHeader) (responseCode : Nat) : RespOut :=
  let errStr :=
    if responseCode = CodeKeyNotFound then notFoundMsg
    else if responseCode = CodeKeyExists then dataExistsMsg
    else []
  { header := { Magic := MagicResponse, Opcode := header.Opcode,
                KeyLength := 0, ExtraLength := 0, DataType := 0,
                Status := responseCode, TotalBodyLength := errStr.length,
                Opaque := header.Opaque, CAS := 0 },
    body := errStr }

/-- The success path of `SetHandler`'s `output:` block: quiet opcodes emit
nothing, others an empty-body `NoError` response carrying the stored CAS. -/
def setSuccessResp (header : RequestHeader) (responseCAS : Nat) :
    Option RespOut :=
  if header.Opcode = OpAddQ ∨ header.Opcode = OpReplaceQ ∨ header.Opcode = OpSetQ
  then none
  else some
    { header := { Magic := MagicResponse, Opcode := header.Opcode,
                  KeyLength := 0, ExtraLength := 0, DataType := 0,
                  Status := CodeNoError, TotalBodyLength := 0,
                  Opaque := header.Opaque, CAS := responseCAS },
      body := [] }

/-- `SetHandler` (handlers.go): validation, body parsing, dispatch to
`AddToSimpleKV` (for Add/AddQ) or `SetToSimpleKV` (otherwise, with
`replace` true exactly for Replace/ReplaceQ), then the `output:` block. -/
def SetHandler (header : RequestHeader) (body : List Nat) (now : Int)
    (s : KVState) : Except String (Option RespOut × KVState) :=
  if header.ExtraLength ≠ 8 ∨ header.KeyLength = 0 then
    .error "Set/Add/Replace commands MUST have key and extra"
  else
    let key := (parseSetBody header.KeyLength body now).1
    let newVal := (parseSetBody header.KeyLength body now).2
    if header.Opcode = OpAdd ∨ header.Opcode = OpAddQ then
      match AddToSimpleKV s key newVal with
      | ((_, false), s1) => .ok (some (setFailResp header CodeKeyExists), s1)
      | ((v, true), s1) => .ok (setSuccessResp header v.CAS, s1)
    else
      match SetToSimpleKV s key newVal header.CAS
          (header.Opcode = OpReplace ∨ header.Opcode = OpReplaceQ) with
      | ((_, true, _), s1) => .ok (some (setFailResp header CodeKeyNotFound), s1)
      | ((_, false, false), s1) => .ok (some (setFailResp header CodeKeyExists), s1)
      | ((v, false, true), s1) => .ok (setSuccessResp header v.CAS, s1)

/-! ### Predicates and fixtures used by the theorems -/

/-- No live entry of the map carries CAS 0. -/
def NoZeroCAS (s : KVState) : Prop :=
  ∀ k v, s.simplekvMap k = some v → v.CAS ≠ 0

/-- Entries reachable in a run: field widths respected and sizes bounded by
the request size limit (a stored value plus its key and the 8 extra bytes
came from one request body of at most `MaxReqLen` bytes). -/
def KVState.Wf (s : KVState) : Prop :=
  ∀ k v, s.simplekvMap k = some v →
    v.Flag < U32 ∧ v.CAS < U64 ∧ v.RawData.length + k.length + 8 ≤ MaxReqLen

/-- The stamped candidate and post-insert state of a successful
add/set/replace dispatched from `SetHandler`. -/
def setStoredState (header : RequestHeader) (body : List Nat) (now : Int)
    (s : KVState) : KVState :=
  { simplekvMap := mapInsert s.simplekvMap
      (parseSetBody header.KeyLength body now).1
      { (parseSetBody header.KeyLength body now).2 with CAS := nextCasID s.casID },
    casID := nextCasID s.casID }

/-- Concrete fixtures for evaluating the theorems on closed inputs. -/
def wKey : List Nat := asciiBytes "Hello"

def wVal : SimpleValue :=
  { RawData := asciiBytes "World", Flag := 0, CAS := 0, TTL := 0 }

def wEntry : SimpleValue := { wVal with CAS := 5 }

/-- A state holding `wEntry` under `wKey`, counter at 5. -/
def wState : KVState :=
  { simplekvMap := mapInsert (fun _ => none) wKey wEntry, casID := 5 }

/-- A state holding an already-expired entry (deadline second 10) under
`wKey`. -/
def wExpState : KVState :=
  { simplekvMap := mapInsert (fun _ => none) wKey { wVal with TTL := 10, CAS := 3 },
    casID := 3 }

/-- A concrete GetK request for `wKey`. -/
def wGetHeader : RequestHeader :=
  { Magic := 0x80, Opcode := OpGetK, KeyLength := 5, ExtraLength := 0,
    DataType := 0, VBucketID := 0, TotalBodyLength := 5, Opaque := 7, CAS := 0 }

/-- A concrete Set request for `wKey` (flag 9, raw TTL 0, value "World"). -/
def wSetHeader : RequestHeader :=
  { Magic := 0x80, Opcode := OpSet, KeyLength := 5, ExtraLength := 8,
    DataType := 0, VBucketID := 0, TotalBodyLength := 18, Opaque := 7, CAS := 0 }

/-- The body of `wSetHeader`: 4 flag bytes, 4 TTL bytes, key, value. -/
def wSetBody : List Nat :=
  [0, 0, 0, 9, 0, 0, 0, 0] ++ wKey ++ asciiBytes "World"

/-- The response and state of running `wSetHeader`/`wSetBody` on the
initial state. -/
def wSetOut : Option RespOut := setSuccessResp wSetHeader (nextCasID initialState.casID)

def wSetState : KVState := setStoredState wSetHeader wSetBody 30 initialState

/-- A concrete response header exercising every field width. -/
def wRespHeader : ResponseHeader :=
  { Magic := 0x81, Opcode := 0x0c, KeyLength := 0x1234, ExtraLength := 4,
    DataType := 0, Status := 2, TotalBodyLength := 70000, Opaque := 123456,
    CAS := 81985529216486895 }

/-- 24 concrete request-header bytes: a Get of a 5-byte key, opaque 9,
CAS 1. -/
def wReqBytes : List Nat :=
  [0x80, 0x00, 0, 5, 0, 0, 0, 0, 0, 0, 0, 5, 0, 0, 0, 9,
   0, 0, 0, 0, 0, 0, 0, 1]

/-! ### Bridges between the source's bit operations and arithmetic -/

theorem shiftLeft_lor_eq_add {b : Nat} (n : Nat) (hb : b < 2 ^ n) (a : Nat) :
    a <<< n ||| b = a * 2 ^ n + b := by
  rw [Nat.shiftLeft_eq, Nat.mul_comm]
  exact (Nat.mul_add_lt_is_or hb a).symm

theorem and_255_eq_mod (x : Nat) : x &&& 0x00ff = x % 256 := by
  have h := Nat.and_pow_two_sub_one_eq_mod x 8
  norm_num at h
  exact h

theorem and_65535_eq_mod (x : Nat) : x &&& 0x0000ffff = x % 65536 := by
  have h := Nat.and_pow_two_sub_one_eq_mod x 16
  norm_num at h
  exact h

theorem and_u32_eq_mod (x : Nat) : x &&& 0x00000000ffffffff = x % 4294967296 := by
  have h := Nat.and_pow_two_sub_one_eq_mod x 32
  norm_num at h
  exact h

theorem byteAt_lt (buf : List Nat) (hb : ∀ x ∈ buf, x < 256) (i : Nat) :
    byteAt buf i < 256 := by
  unfold byteAt
  by_cases h : i < buf.length
  · rw [buf.getD_eq_getElem 0 h]
    exact hb _ (buf.getElem_mem h)
  · rw [buf.getD_eq_default 0 (by omega)]
    omega

theorem byteAt_drop (buf : List Nat) (n i : Nat) :
    byteAt (buf.drop n) i = byteAt buf (n + i) := by
  unfold byteAt
  simp [List.getD_eq_getElem?_getD, List.getElem?_drop]

theorem bytes_drop (buf : List Nat) (hb : ∀ x ∈ buf, x < 256) (n : Nat) :
    ∀ x ∈ buf.drop n, x < 256 :=
  fun x hx => hb x (List.mem_of_mem_drop hx)

theorem GetUint16_eq (buf : List Nat) (hb : ∀ x ∈ buf, x < 256) :
    GetUint16 buf = byteAt buf 0 * 256 + byteAt buf 1 := by
  unfold GetUint16
  rw [shiftLeft_lor_eq_add 8 (byteAt_lt buf hb 1)]
  norm_num

theorem GetUint16_lt (buf : List Nat) (hb : ∀ x ∈ buf, x < 256) :
    GetUint16 buf < 65536 := by
  rw [GetUint16_eq buf hb]
  have h0 := byteAt_lt buf hb 0
  have h1 := byteAt_lt buf hb 1
  omega

theorem GetUint32_eq (buf : List Nat) (hb : ∀ x ∈ buf, x < 256) :
    GetUint32 buf = byteAt buf 0 * 2 ^ 24 + byteAt buf 1 * 2 ^ 16 +
      byteAt buf 2 * 2 ^ 8 + byteAt buf 3 := by
  unfold GetUint32
  rw [shiftLeft_lor_eq_add 16 (GetUint16_lt _ (bytes_drop buf hb 2)),
    GetUint16_eq buf hb, GetUint16_eq _ (bytes_drop buf hb 2),
    byteAt_drop, byteAt_drop]
  ring

theorem GetUint32_lt (buf : List Nat) (hb : ∀ x ∈ buf, x < 256) :
    GetUint32 buf < 4294967296 := by
  rw [GetUint32_eq buf hb]
  have h0 := byteAt_lt buf hb 0
  have h1 := byteAt_lt buf hb 1
  have h2 := byteAt_lt buf hb 2
  have h3 := byteAt_lt buf hb 3
  omega

theorem GetUint64_eq (buf : List Nat) (hb : ∀ x ∈ buf, x < 256) :
    GetUint64 buf = byteAt buf 0 * 2 ^ 56 + byteAt buf 1 * 2 ^ 48 +
      byteAt buf 2 * 2 ^ 40 + byteAt buf 3 * 2 ^ 32 +
      byteAt buf 4 * 2 ^ 24 + byteAt buf 5 * 2 ^ 16 +
      byteAt buf 6 * 2 ^ 8 + byteAt buf 7 := by
  unfold GetUint64
  rw [shiftLeft_lor_eq_add 32 (GetUint32_lt _ (bytes_drop buf hb 4)),
    GetUint32_eq buf hb, GetUint32_eq _ (bytes_drop buf hb 4),
    byteAt_drop, byteAt_drop, byteAt_drop, byteAt_drop]
  ring

/-! ### Helper lemmas about the store -/

theorem nextCasID_ne_zero (c : Nat) : nextCasID c ≠ 0 := by
  unfold nextCasID U64
  norm_num
  split <;> omega

theorem nextCasID_gt (c : Nat) (h : c + 1 < U64) : c < nextCasID c := by
  unfold nextCasID U64 at *
  norm_num at *
  have h1 : (c + 1) % 18446744073709551616 = c + 1 := Nat.mod_eq_of_lt h
  rw [h1]
  split <;> omega

theorem mapInsert_self (m : List Nat → Option SimpleValue) (key : List Nat)
    (v : SimpleValue) : mapInsert m key v key = some v := by
  simp [mapInsert]

theorem mapDelete_self (m : List Nat → Option SimpleValue) (key : List Nat) :
    mapDelete m key key = none := by
  simp [mapDelete]

/-! ### Claim theorems -/

/-- C1: `SetToSimpleKV` implements the three-step set-or-replace algorithm:
absent key with `replace` is `not_found` (second component true, third
false) without touching the state; a present key with a nonzero
non-matching `cas` is `cas_mismatch` (third component false) without
touching the state; otherwise a fresh nonzero CAS is allocated, stamped
into the candidate, the candidate is stored (inserting when absent and not
replace-only), and the stored entry is returned; in particular a Set with
nonzero expected CAS on an absent key succeeds and inserts. -/
theorem SetToSimpleKV_spec (s : KVState) (key : List Nat)
    (newVal : SimpleValue) (cas : Nat) (replace : Bool) :
    (s.simplekvMap key = none → replace = true →
      SetToSimpleKV s key newVal cas replace = ((newVal, true, false), s)) ∧
    (∀ old, s.simplekvMap key = some old → cas ≠ 0 → cas ≠ old.CAS →
      SetToSimpleKV s key newVal cas replace = ((newVal, false, false), s)) ∧
    (∀ old, s.simplekvMap key = some old → (cas = 0 ∨ cas = old.CAS) →
      SetToSimpleKV s key newVal cas replace =
        (({ newVal with CAS := nextCasID s.casID }, false, true),
         { simplekvMap :=
             mapInsert s.simplekvMap key { newVal with CAS := nextCasID s.casID },
           casID := nextCasID s.casID })) ∧
    (s.simplekvMap key = none → replace = false →
      SetToSimpleKV s key newVal cas replace =
        (({ newVal with CAS := nextCasID s.casID }, false, true),
         { simplekvMap :=
             mapInsert s.simplekvMap key { newVal with CAS := nextCasID s.casID },
           casID := nextCasID s.casID })) ∧
    nextCasID s.casID ≠ 0 ∧
    (s.simplekvMap key = none → replace = false → cas ≠ 0 →
      (SetToSimpleKV s key newVal cas replace).1.2.2 = true ∧
      (SetToSimpleKV s key newVal cas replace).2.simplekvMap key =
        some { newVal with CAS := nextCasID s.casID }) := by
  refine ⟨?_, ?_, ?_, ?_, nextCasID_ne_zero _, ?_⟩
  · intro hm hr
    simp [SetToSimpleKV, hm, hr]
  · intro old hm hc1 hc2
    simp [SetToSimpleKV, hm, hc1, hc2]
  · intro old hm hc
    have hcond : ¬ (cas ≠ 0 ∧ cas ≠ old.CAS) := by tauto
    simp only [SetToSimpleKV, hm]
    rw [if_neg hcond]
  · intro hm hr
    simp [SetToSimpleKV, hm, hr]
  · intro hm hr _
    simp [SetToSimpleKV, hm, hr, mapInsert_self]

/-- C5: `AddToSimpleKV` fails with `already_exists` on a present key
(leaving the state untouched) and otherwise stamps a fresh nonzero CAS into
the candidate, inserts it, and returns the stored entry; on the
`already_exists` failure the Add/AddQ handler emits status `KeyExists`
(0x0002) with body `"Data exists for key."`. -/
theorem AddToSimpleKV_spec :
    (∀ (s : KVState) (key : List Nat) (newVal : SimpleValue) old,
      s.simplekvMap key = some old →
      AddToSimpleKV s key newVal = ((newVal, false), s)) ∧
    (∀ (s : KVState) (key : List Nat) (newVal : SimpleValue),
      s.simplekvMap key = none →
      AddToSimpleKV s key newVal =
        (({ newVal with CAS := nextCasID s.casID }, true),
         { simplekvMap :=
             mapInsert s.simplekvMap key { newVal with CAS := nextCasID s.casID },
           casID := nextCasID s.casID }) ∧
      ({ newVal with CAS := nextCasID s.casID } : SimpleValue).CAS ≠ 0 ∧
      (AddToSimpleKV s key newVal).2.simplekvMap key =
        some { newVal with CAS := nextCasID s.casID }) ∧
    (∀ (header : RequestHeader) (body : List Nat) (now : Int) (s : KVState),
      (header.Opcode = OpAdd ∨ header.Opcode = OpAddQ) →
      header.ExtraLength = 8 → header.KeyLength ≠ 0 →
      ∀ old, s.simplekvMap (parseSetBody header.KeyLength body now).1 = some old →
      SetHandler header body now s =
        .ok (some (setFailResp header CodeKeyExists), s) ∧
      (setFailResp header CodeKeyExists).header.Status = CodeKeyExists ∧
      (setFailResp header CodeKeyExists).body = dataExistsMsg) := by
  refine ⟨?_, ?_, ?_⟩
  · intro s key newVal old hm
    simp [AddToSimpleKV, hm]
  · intro s key newVal hm
    refine ⟨by simp [AddToSimpleKV, hm], nextCasID_ne_zero _, ?_⟩
    simp [AddToSimpleKV, hm, mapInsert_self]
  · intro header body now s hop he hk old hm
    refine ⟨?_, by simp [setFailResp, CodeKeyExists, CodeKeyNotFound], rfl⟩
    simp only [SetHandler, he, hk]
    norm_num
    rw [if_pos hop]
    simp [AddToSimpleKV, hm]

/-- C10: failed mutations are side-effect free: when `AddToSimpleKV`
reports `already_exists`, or `SetToSimpleKV` reports `not_found` or
`cas_mismatch`, the returned state (both the map and the CAS counter) is
exactly the input state. -/
theorem mutation_failure_pure (s : KVState) (key : List Nat)
    (newVal : SimpleValue) (cas : Nat) (replace : Bool) :
    ((AddToSimpleKV s key newVal).1.2 = false →
      (AddToSimpleKV s key newVal).2 = s) ∧
    ((SetToSimpleKV s key newVal cas replace).1.2.1 = true →
      (SetToSimpleKV s key newVal cas replace).2 = s) ∧
    ((SetToSimpleKV s key newVal cas replace).1.2.2 = false →
      (SetToSimpleKV s key newVal cas replace).2 = s) := by
  refine ⟨?_, ?_, ?_⟩
  · cases hm : s.simplekvMap key <;> simp [AddToSimpleKV, hm]
  · cases hm : s.simplekvMap key <;> simp only [SetToSimpleKV, hm]
    · split <;> simp
    · split <;> simp
  · cases hm : s.simplekvMap key <;> simp only [SetToSimpleKV, hm]
    · split <;> simp
    · split <;> simp

/-- C8: the store invariant. The initial state has no zero-CAS entry; every
store primitive preserves "no live entry has CAS 0"; every successful
add/set/replace advances the counter by one `nextCasID` step (which bumps a
second time exactly when the post-increment value is 0, hence never yields
0) and stamps exactly that value into the stored entry; absent 64-bit
wraparound (`casID + 1 < 2^64`) the step is strictly increasing, so CAS
values of successive successful mutations strictly increase and are
distinct. -/
theorem cas_invariant :
    NoZeroCAS initialState ∧
    (∀ (s : KVState) key newVal, NoZeroCAS s →
      NoZeroCAS (AddToSimpleKV s key newVal).2) ∧
    (∀ (s : KVState) key newVal cas replace, NoZeroCAS s →
      NoZeroCAS (SetToSimpleKV s key newVal cas replace).2) ∧
    (∀ (s : KVState) key now, NoZeroCAS s →
      NoZeroCAS (GetFromSimpleKV s key now).2) ∧
    (∀ (s : KVState) key newVal, (AddToSimpleKV s key newVal).1.2 = true →
      (AddToSimpleKV s key newVal).2.casID = nextCasID s.casID ∧
      (AddToSimpleKV s key newVal).1.1.CAS = nextCasID s.casID) ∧
    (∀ (s : KVState) key newVal cas replace,
      (SetToSimpleKV s key newVal cas replace).1.2.2 = true →
      (SetToSimpleKV s key newVal cas replace).2.casID = nextCasID s.casID ∧
      (SetToSimpleKV s key newVal cas replace).1.1.CAS = nextCasID s.casID) ∧
    (∀ c, nextCasID c ≠ 0) ∧
    (∀ c, c + 1 < U64 → c < nextCasID c) := by
  refine ⟨?_, ?_, ?_, ?_, ?_, ?_, nextCasID_ne_zero, nextCasID_gt⟩
  · intro k v h
    simp [initialState] at h
  · intro s key newVal hs
    cases hm : s.simplekvMap key with
    | some old => simpa [AddToSimpleKV, hm] using hs
    | none =>
      intro k v h
      simp only [AddToSimpleKV, hm, mapInsert] at h
      by_cases hk : k = key
      · rw [if_pos hk] at h
        cases h
        exact nextCasID_ne_zero _
      · rw [if_neg hk] at h
        exact hs k v h
  · intro s key newVal cas replace hs
    cases hm : s.simplekvMap key with
    | some old =>
      by_cases hc : cas ≠ 0 ∧ cas ≠ old.CAS
      · simpa [SetToSimpleKV, hm, hc] using hs
      · intro k v h
        simp only [SetToSimpleKV, hm, if_neg hc, mapInsert] at h
        by_cases hk : k = key
        · rw [if_pos hk] at h
          cases h
          exact nextCasID_ne_zero _
        · rw [if_neg hk] at h
          exact hs k v h
    | none =>
      cases replace with
      | true => simpa [SetToSimpleKV, hm] using hs
      | false =>
        intro k v h
        simp only [SetToSimpleKV, hm, if_false, Bool.false_eq_true, mapInsert] at h
        by_cases hk : k = key
        · rw [if_pos hk] at h
          cases h
          exact nextCasID_ne_zero _
        · rw [if_neg hk] at h
          exact hs k v h
  · intro s key now hs
    cases hm : s.simplekvMap key with
    | none => simpa [GetFromSimpleKV, hm] using hs
    | some val =>
      by_cases ht : val.TTL ≠ 0 ∧ val.TTL < now
      · simp only [GetFromSimpleKV, hm, if_pos ht, if_true]
        intro k v h
        simp only [mapDelete] at h
        by_cases hk : k = key
        · rw [if_pos hk] at h
          cases h
        · rw [if_neg hk] at h
          exact hs k v h
      · simpa [GetFromSimpleKV, hm, ht] using hs
  · intro s key newVal hsucc
    cases hm : s.simplekvMap key with
    | some old => simp [AddToSimpleKV, hm] at hsucc
    | none => simp [AddToSimpleKV, hm]
  · intro s key newVal cas replace hsucc
    cases hm : s.simplekvMap key with
    | some old =>
      by_cases hc : cas ≠ 0 ∧ cas ≠ old.CAS
      · simp [SetToSimpleKV, hm, hc] at hsucc
      · simp [SetToSimpleKV, hm, hc]
    | none =>
      cases replace with
      | true => simp [SetToSimpleKV, hm] at hsucc
      | false => simp [SetToSimpleKV, hm]

/-- C4: expiry is lazy and happens only on lookup. A lookup of an entry
whose `TTL` deadline is nonzero and has passed deletes it (the deletion
branch of `GetFromSimpleKV` fires only when the re-lookup under the
exclusive lock returns an entry whose CAS equals the one observed under the
shared lock, which in this per-primitive-atomic embedding is always the
same entry) and reports a miss; a lookup of an entry with `TTL = 0` or an
unexpired deadline returns it as a hit and leaves the state unchanged; a
lookup of an absent key misses; and neither `AddToSimpleKV` nor
`SetToSimpleKV` ever removes an entry, so no path other than lookup removes
expired entries. -/
theorem expiry_lazy :
    (∀ (s : KVState) key (now : Int) v, s.simplekvMap key = some v →
      v.TTL ≠ 0 → v.TTL < now →
      GetFromSimpleKV s key now =
        (none, { s with simplekvMap := mapDelete s.simplekvMap key }) ∧
      mapDelete s.simplekvMap key key = none) ∧
    (∀ (s : KVState) key (now : Int) v, s.simplekvMap key = some v →
      (v.TTL = 0 ∨ ¬ v.TTL < now) →
      GetFromSimpleKV s key now = (some v, s)) ∧
    (∀ (s : KVState) key (now : Int), s.simplekvMap key = none →
      GetFromSimpleKV s key now = (none, s)) ∧
    (∀ (s : KVState) key newVal k, (s.simplekvMap k).isSome →
      ((AddToSimpleKV s key newVal).2.simplekvMap k).isSome) ∧
    (∀ (s : KVState) key newVal cas replace k, (s.simplekvMap k).isSome →
      ((SetToSimpleKV s key newVal cas replace).2.simplekvMap k).isSome) := by
  refine ⟨?_, ?_, ?_, ?_, ?_⟩
  · intro s key now v hm ht1 ht2
    refine ⟨?_, mapDelete_self _ _⟩
    simp [GetFromSimpleKV, hm, ht1, ht2]
  · intro s key now v hm ht
    have hcond : ¬ (v.TTL ≠ 0 ∧ v.TTL < now) := by tauto
    simp [GetFromSimpleKV, hm, hcond]
  · intro s key now hm
    simp [GetFromSimpleKV, hm]
  · intro s key newVal k hk
    cases hm : s.simplekvMap key with
    | some old => simpa [AddToSimpleKV, hm] using hk
    | none =>
      simp only [AddToSimpleKV, hm, mapInsert]
      by_cases he : k = key
      · simp [he]
      · simpa [he] using hk
  · intro s key newVal cas replace k hk
    cases hm : s.simplekvMap key with
    | some old =>
      by_cases hc : cas ≠ 0 ∧ cas ≠ old.CAS
      · simpa [SetToSimpleKV, hm, hc] using hk
      · simp only [SetToSimpleKV, hm, if_neg hc, mapInsert]
        by_cases he : k = key
        · simp [he]
        · simpa [he] using hk
    | none =>
      cases replace with
      | true => simpa [SetToSimpleKV, hm] using hk
      | false =>
        simp only [SetToSimpleKV, hm, if_false, Bool.false_eq_true, mapInsert]
        by_cases he : k = key
        · simp [he]
        · simpa [he] using hk

/-! ### Shared characterization of the SetHandler branches -/

theorem SetHandler_branches (header : RequestHeader) (body : List Nat)
    (now : Int) (s : KVState)
    (he : header.ExtraLength = 8) (hk : header.KeyLength ≠ 0) :
    (∀ old, (header.Opcode = OpAdd ∨ header.Opcode = OpAddQ) →
      s.simplekvMap (parseSetBody header.KeyLength body now).1 = some old →
      SetHandler header body now s =
        .ok (some (setFailResp header CodeKeyExists), s)) ∧
    ((header.Opcode = OpAdd ∨ header.Opcode = OpAddQ) →
      s.simplekvMap (parseSetBody header.KeyLength body now).1 = none →
      SetHandler header body now s =
        .ok (setSuccessResp header (nextCasID s.casID),
             setStoredState header body now s)) ∧
    (¬ (header.Opcode = OpAdd ∨ header.Opcode = OpAddQ) →
      s.simplekvMap (parseSetBody header.KeyLength body now).1 = none →
      (header.Opcode = OpReplace ∨ header.Opcode = OpReplaceQ) →
      SetHandler header body now s =
        .ok (some (setFailResp header CodeKeyNotFound), s)) ∧
    (¬ (header.Opcode = OpAdd ∨ header.Opcode = OpAddQ) →
      ∀ old, s.simplekvMap (parseSetBody header.KeyLength body now).1 = some old →
      header.CAS ≠ 0 → header.CAS ≠ old.CAS →
      SetHandler header body now s =
        .ok (some (setFailResp header CodeKeyExists), s)) ∧
    (¬ (header.Opcode = OpAdd ∨ header.Opcode = OpAddQ) →
      s.simplekvMap (parseSetBody header.KeyLength body now).1 = none →
      ¬ (header.Opcode = OpReplace ∨ header.Opcode = OpReplaceQ) →
      SetHandler header body now s =
        .ok (setSuccessResp header (nextCasID s.casID),
             setStoredState header body now s)) ∧
    (¬ (header.Opcode = OpAdd ∨ header.Opcode = OpAddQ) →
      ∀ old, s.simplekvMap (parseSetBody header.KeyLength body now).1 = some old →
      (header.CAS = 0 ∨ header.CAS = old.CAS) →
      SetHandler header body now s =
        .ok (setSuccessResp header (nextCasID s.casID),
             setStoredState header body now s)) := by
  have hval : ¬ (header.ExtraLength ≠ 8 ∨ header.KeyLength = 0) := by tauto
  refine ⟨?_, ?_, ?_, ?_, ?_, ?_⟩
  · intro old hop hm
    simp [SetHandler, hval, hop, AddToSimpleKV, hm]
  · intro hop hm
    simp [SetHandler, hval, hop, AddToSimpleKV, hm, setStoredState]
  · intro hop hm hrepl
    simp [SetHandler, hval, hop, SetToSimpleKV, hm, hrepl]
  · intro hop old hm hc1 hc2
    simp [SetHandler, hval, hop, SetToSimpleKV, hm, hc1, hc2]
  · intro hop hm hrepl
    simp [SetHandler, hval, hop, SetToSimpleKV, hm, hrepl, setStoredState]
  · intro hop old hm hc
    have hcond : ¬ (header.CAS ≠ 0 ∧ header.CAS ≠ old.CAS) := by tauto
    simp only [SetHandler, hval, if_neg hval, hop, if_false, if_neg hop,
      SetToSimpleKV, hm]
    rw [if_neg hcond]
    simp [setStoredState]

/-- C3: the stored TTL deadline of the set/add/replace family. The
candidate built from the request body carries
`ttl_deadline = raw_ttl + now` when the 4-byte big-endian `raw_ttl`
(body bytes 4..7) is positive, and `ttl_deadline = 0` (no expiry) when
`raw_ttl = 0`; whenever `SetHandler` succeeds (it emitted nothing or a
`NoError` response), the entry stored under the parsed key is exactly that
candidate with a fresh CAS stamped, so its `TTL` is the normalized
deadline. Here `now` stands for the source's `time.Now().Second()`, the
second within the current minute (spec §9). -/
theorem setHandler_ttl :
    (∀ (keyLength : Nat) (body : List Nat) (now : Int),
      (parseSetBody keyLength body now).2.TTL =
        if 0 < GetUint32 (body.drop 4)
        then (GetUint32 (body.drop 4) : Int) + now else 0) ∧
    (∀ (header : RequestHeader) (body : List Nat) (now : Int) (s : KVState)
      out s1,
      header.ExtraLength = 8 → header.KeyLength ≠ 0 →
      SetHandler header body now s = .ok (out, s1) →
      (out = none ∨ ∃ r, out = some r ∧ r.header.Status = CodeNoError) →
      s1.simplekvMap (parseSetBody header.KeyLength body now).1 =
        some { (parseSetBody header.KeyLength body now).2 with
               CAS := nextCasID s.casID }) := by
  constructor
  · intro keyLength body now
    simp only [parseSetBody]
    by_cases h : 0 < GetUint32 (body.drop 4)
    · rw [if_pos (by exact_mod_cast h), if_pos h]
    · have h0 : GetUint32 (body.drop 4) = 0 := by omega
      simp [h0]
  · intro header body now s out s1 he hk hrun hsucc
    obtain ⟨b1, b2, b3, b4, b5, b6⟩ := SetHandler_branches header body now s he hk
    have hfailNotOk : ∀ code, code = CodeKeyNotFound ∨ code = CodeKeyExists →
        out = some (setFailResp header code) → False := by
      intro code hcode hout
      rcases hsucc with h | ⟨r, hr, hst⟩
      · rw [hout] at h
        cases h
      · rw [hout] at hr
        cases hr
        rcases hcode with h | h <;>
          simp [setFailResp, h, CodeKeyNotFound, CodeKeyExists, CodeNoError] at hst
    by_cases hop : header.Opcode = OpAdd ∨ header.Opcode = OpAddQ
    · cases hm : s.simplekvMap (parseSetBody header.KeyLength body now).1 with
      | some old =>
        rw [b1 old hop hm] at hrun
        simp only [Except.ok.injEq, Prod.mk.injEq] at hrun
        exact absurd hrun.1.symm (fun h => hfailNotOk _ (Or.inr rfl) h)
      | none =>
        rw [b2 hop hm] at hrun
        simp only [Except.ok.injEq, Prod.mk.injEq] at hrun
        rw [← hrun.2]
        simp [setStoredState, mapInsert_self]
    · cases hm : s.simplekvMap (parseSetBody header.KeyLength body now).1 with
      | none =>
        by_cases hrepl : header.Opcode = OpReplace ∨ header.Opcode = OpReplaceQ
        · rw [b3 hop hm hrepl] at hrun
          simp only [Except.ok.injEq, Prod.mk.injEq] at hrun
          exact absurd hrun.1.symm (fun h => hfailNotOk _ (Or.inl rfl) h)
        · rw [b5 hop hm hrepl] at hrun
          simp only [Except.ok.injEq, Prod.mk.injEq] at hrun
          rw [← hrun.2]
          simp [setStoredState, mapInsert_self]
      | some old =>
        by_cases hcc : header.CAS ≠ 0 ∧ header.CAS ≠ old.CAS
        · rw [b4 hop old hm hcc.1 hcc.2] at hrun
          simp only [Except.ok.injEq, Prod.mk.injEq] at hrun
          exact absurd hrun.1.symm (fun h => hfailNotOk _ (Or.inr rfl) h)
        · have hc : header.CAS = 0 ∨ header.CAS = old.CAS := by
            by_cases h0 : header.CAS = 0
            · exact Or.inl h0
            · by_cases h1 : header.CAS = old.CAS
              · exact Or.inr h1
              · exact absurd ⟨h0, h1⟩ hcc
          rw [b6 hop old hm hc] at hrun
          simp only [Except.ok.injEq, Prod.mk.injEq] at hrun
          rw [← hrun.2]
          simp [setStoredState, mapInsert_self]

/-- C6: response emission of the set/add/replace family. On success a quiet
opcode (SetQ/AddQ/ReplaceQ) emits nothing and a non-quiet opcode emits a
`NoError` response with empty body whose CAS is the newly stored entry's
CAS; every failure (quiet or not) emits a response with the failure status
and its fixed ASCII body (`KeyNotFound`/`"Not found"` or
`KeyExists`/`"Data exists for key."`) and CAS 0. -/
theorem SetHandler_emission (header : RequestHeader) (body : List Nat)
    (now : Int) (s : KVState)
    (he : header.ExtraLength = 8) (hk : header.KeyLength ≠ 0) :
    ((header.Opcode = OpAddQ ∨ header.Opcode = OpReplaceQ ∨
        header.Opcode = OpSetQ) →
      ∀ c, setSuccessResp header c = none) ∧
    (¬ (header.Opcode = OpAddQ ∨ header.Opcode = OpReplaceQ ∨
        header.Opcode = OpSetQ) →
      ∀ c, setSuccessResp header c = some
        { header := { Magic := MagicResponse, Opcode := header.Opcode,
                      KeyLength := 0, ExtraLength := 0, DataType := 0,
                      Status := CodeNoError, TotalBodyLength := 0,
                      Opaque := header.Opaque, CAS := c },
          body := [] }) ∧
    (∀ code, code = CodeKeyNotFound ∨ code = CodeKeyExists →
      (setFailResp header code).header.Status = code ∧
      (setFailResp header code).header.CAS = 0 ∧
      (setFailResp header code).body =
        (if code = CodeKeyNotFound then notFoundMsg else dataExistsMsg)) ∧
    (∀ out s1, SetHandler header body now s = .ok (out, s1) →
      (∃ c, out = setSuccessResp header c ∧
        s1.simplekvMap (parseSetBody header.KeyLength body now).1 =
          some { (parseSetBody header.KeyLength body now).2 with CAS := c }) ∨
      (∃ code, (code = CodeKeyNotFound ∨ code = CodeKeyExists) ∧
        out = some (setFailResp header code) ∧ s1 = s)) := by
  obtain ⟨b1, b2, b3, b4, b5, b6⟩ := SetHandler_branches header body now s he hk
  refine ⟨?_, ?_, ?_, ?_⟩
  · intro hq c
    simp [setSuccessResp, hq]
  · intro hq c
    simp [setSuccessResp, hq]
  · intro code hcode
    rcases hcode with h | h <;>
      simp [setFailResp, h, CodeKeyNotFound, CodeKeyExists]
  · intro out s1 hrun
    by_cases hop : header.Opcode = OpAdd ∨ header.Opcode = OpAddQ
    · cases hm : s.simplekvMap (parseSetBody header.KeyLength body now).1 with
      | some old =>
        rw [b1 old hop hm] at hrun
        simp only [Except.ok.injEq, Prod.mk.injEq] at hrun
        exact Or.inr ⟨CodeKeyExists, Or.inr rfl, hrun.1.symm, hrun.2.symm⟩
      | none =>
        rw [b2 hop hm] at hrun
        simp only [Except.ok.injEq, Prod.mk.injEq] at hrun
        refine Or.inl ⟨nextCasID s.casID, hrun.1.symm, ?_⟩
        rw [← hrun.2]
        simp [setStoredState, mapInsert_self]
    · cases hm : s.simplekvMap (parseSetBody header.KeyLength body now).1 with
      | none =>
        by_cases hrepl : header.Opcode = OpReplace ∨ header.Opcode = OpReplaceQ
        · rw [b3 hop hm hrepl] at hrun
          simp only [Except.ok.injEq, Prod.mk.injEq] at hrun
          exact Or.inr ⟨CodeKeyNotFound, Or.inl rfl, hrun.1.symm, hrun.2.symm⟩
        · rw [b5 hop hm hrepl] at hrun
          simp only [Except.ok.injEq, Prod.mk.injEq] at hrun
          refine Or.inl ⟨nextCasID s.casID, hrun.1.symm, ?_⟩
          rw [← hrun.2]
          simp [setStoredState, mapInsert_self]
      | some old =>
        by_cases hcc : header.CAS ≠ 0 ∧ header.CAS ≠ old.CAS
        · rw [b4 hop old hm hcc.1 hcc.2] at hrun
          simp only [Except.ok.injEq, Prod.mk.injEq] at hrun
          exact Or.inr ⟨CodeKeyExists, Or.inr rfl, hrun.1.symm, hrun.2.symm⟩
        · have hc : header.CAS = 0 ∨ header.CAS = old.CAS := by
            by_cases h0 : header.CAS = 0
            · exact Or.inl h0
            · by_cases h1 : header.CAS = old.CAS
              · exact Or.inr h1
              · exact absurd ⟨h0, h1⟩ hcc
          rw [b6 hop old hm hc] at hrun
          simp only [Except.ok.injEq, Prod.mk.injEq] at hrun
          refine Or.inl ⟨nextCasID s.casID, hrun.1.symm, ?_⟩
          rw [← hrun.2]
          simp [setStoredState, mapInsert_self]

/-- C7: `parseRequestHeader` on a 24-byte input returns an error exactly
when the magic byte differs from 0x80, or the opcode is not one of the 13
opcodes of the `OpHandler` dispatch table, or the data-type byte differs
from 0x00, or the decoded total body length is smaller than decoded key
length plus extra length; on success every field is the big-endian decode
of its byte range, with `VBucketID`, `Opaque` and `CAS` passed through
unmodified. -/
theorem parseRequestHeader_spec (buf : List Nat) (hlen : buf.length = 24)
    (hb : ∀ x ∈ buf, x < 256) :
    ((∃ e, parseRequestHeader buf = .error e) ↔
      (byteAt buf 0 ≠ MagicRequest ∨ opcodeKnown (byteAt buf 1) = false ∨
       byteAt buf 5 ≠ 0 ∨
       byteAt buf 8 * 2 ^ 24 + byteAt buf 9 * 2 ^ 16 +
         byteAt buf 10 * 2 ^ 8 + byteAt buf 11 <
         (byteAt buf 2 * 2 ^ 8 + byteAt buf 3) + byteAt buf 4)) ∧
    (∀ h, parseRequestHeader buf = .ok h →
      h.Magic = byteAt buf 0 ∧ h.Opcode = byteAt buf 1 ∧
      h.KeyLength = byteAt buf 2 * 2 ^ 8 + byteAt buf 3 ∧
      h.ExtraLength = byteAt buf 4 ∧ h.DataType = byteAt buf 5 ∧
      h.VBucketID = byteAt buf 6 * 2 ^ 8 + byteAt buf 7 ∧
      h.TotalBodyLength = byteAt buf 8 * 2 ^ 24 + byteAt buf 9 * 2 ^ 16 +
        byteAt buf 10 * 2 ^ 8 + byteAt buf 11 ∧
      h.Opaque = byteAt buf 12 * 2 ^ 24 + byteAt buf 13 * 2 ^ 16 +
        byteAt buf 14 * 2 ^ 8 + byteAt buf 15 ∧
      h.CAS = byteAt buf 16 * 2 ^ 56 + byteAt buf 17 * 2 ^ 48 +
        byteAt buf 18 * 2 ^ 40 + byteAt buf 19 * 2 ^ 32 +
        byteAt buf 20 * 2 ^ 24 + byteAt buf 21 * 2 ^ 16 +
        byteAt buf 22 * 2 ^ 8 + byteAt buf 23) := by
  have e2 : GetUint16 (buf.drop 2) = byteAt buf 2 * 2 ^ 8 + byteAt buf 3 := by
    rw [GetUint16_eq _ (bytes_drop buf hb 2), byteAt_drop, byteAt_drop]
    norm_num
  have e6 : GetUint16 (buf.drop 6) = byteAt buf 6 * 2 ^ 8 + byteAt buf 7 := by
    rw [GetUint16_eq _ (bytes_drop buf hb 6), byteAt_drop, byteAt_drop]
    norm_num
  have e8 : GetUint32 (buf.drop 8) = byteAt buf 8 * 2 ^ 24 +
      byteAt buf 9 * 2 ^ 16 + byteAt buf 10 * 2 ^ 8 + byteAt buf 11 := by
    rw [GetUint32_eq _ (bytes_drop buf hb 8), byteAt_drop, byteAt_drop,
      byteAt_drop, byteAt_drop]
  have e12 : GetUint32 (buf.drop 12) = byteAt buf 12 * 2 ^ 24 +
      byteAt buf 13 * 2 ^ 16 + byteAt buf 14 * 2 ^ 8 + byteAt buf 15 := by
    rw [GetUint32_eq _ (bytes_drop buf hb 12), byteAt_drop, byteAt_drop,
      byteAt_drop, byteAt_drop]
  have e16 : GetUint64 (buf.drop 16) = byteAt buf 16 * 2 ^ 56 +
      byteAt buf 17 * 2 ^ 48 + byteAt buf 18 * 2 ^ 40 + byteAt buf 19 * 2 ^ 32 +
      byteAt buf 20 * 2 ^ 24 + byteAt buf 21 * 2 ^ 16 +
      byteAt buf 22 * 2 ^ 8 + byteAt buf 23 := by
    rw [GetUint64_eq _ (bytes_drop buf hb 16), byteAt_drop, byteAt_drop,
      byteAt_drop, byteAt_drop, byteAt_drop, byteAt_drop, byteAt_drop,
      byteAt_drop]
  by_cases h1 : byteAt buf 0 = MagicRequest
  case neg =>
    have hp : parseRequestHeader buf = .error "Magic byte is not 0x80" := by
      simp [parseRequestHeader, h1]
    refine ⟨⟨fun _ => Or.inl h1, fun _ => ⟨_, hp⟩⟩, ?_⟩
    intro h hok
    rw [hp] at hok
    cases hok
  case pos =>
  by_cases h2 : opcodeKnown (byteAt buf 1)
  case neg =>
    have hp : parseRequestHeader buf = .error "Opcode byte is not recognized" := by
      simp [parseRequestHeader, h1, h2]
    refine ⟨⟨fun _ => Or.inr (Or.inl (by simpa using h2)), fun _ => ⟨_, hp⟩⟩, ?_⟩
    intro h hok
    rw [hp] at hok
    cases hok
  case pos =>
  by_cases h3 : byteAt buf 5 = 0
  case neg =>
    have hp : parseRequestHeader buf =
        .error "DataType byte is supposed to be 0x00" := by
      simp [parseRequestHeader, h1, h2, h3]
    refine ⟨⟨fun _ => Or.inr (Or.inr (Or.inl h3)), fun _ => ⟨_, hp⟩⟩, ?_⟩
    intro h hok
    rw [hp] at hok
    cases hok
  case pos =>
  by_cases h4 : GetUint32 (buf.drop 8) < GetUint16 (buf.drop 2) + byteAt buf 4
  case pos =>
    have hp : parseRequestHeader buf =
        .error "TotalBodyLength is supposed to be no less than KeyLength + ExtraLength" := by
      simp [parseRequestHeader, h1, h2, h3, h4]
    refine ⟨⟨fun _ => Or.inr (Or.inr (Or.inr ?_)), fun _ => ⟨_, hp⟩⟩, ?_⟩
    · rw [e8, e2] at h4
      exact h4
    · intro h hok
      rw [hp] at hok
      cases hok
  case neg =>
    have hp : parseRequestHeader buf = .ok
        { Magic := byteAt buf 0, Opcode := byteAt buf 1,
          KeyLength := GetUint16 (buf.drop 2), ExtraLength := byteAt buf 4,
          DataType := byteAt buf 5, VBucketID := GetUint16 (buf.drop 6),
          TotalBodyLength := GetUint32 (buf.drop 8),
          Opaque := GetUint32 (buf.drop 12), CAS := GetUint64 (buf.drop 16) } := by
      simp [parseRequestHeader, h1, h2, h3, h4]
    constructor
    · constructor
      · intro ⟨e, he⟩
        rw [hp] at he
        cases he
      · intro hor
        rcases hor with h | h | h | h
        · exact absurd h1 h
        · exact absurd (by simpa using h2) (by simp [h])
        · exact absurd h3 h
        · rw [e8, e2] at h4
          omega
    · intro h hok
      rw [hp] at hok
      cases hok
      exact ⟨rfl, rfl, e2, rfl, rfl, e6, e8, e12, e16⟩

set_option maxHeartbeats 1600000 in
/-- C9: round trip of the response header. Serializing any `ResponseHeader`
(fields within their Go widths) with `writeResponseHeader` yields 24 bytes
whose big-endian decode — byte 0 magic, 1 opcode, 2-3 key length, 4 extra
length, 5 data type, 6-7 status, 8-11 total body length, 12-15 opaque,
16-23 CAS — gives back exactly the original field values. -/
theorem writeResponseHeader_roundtrip (h : ResponseHeader) (hw : h.Wf) :
    (writeResponseHeader h).length = 24 ∧
    byteAt (writeResponseHeader h) 0 = h.Magic ∧
    byteAt (writeResponseHeader h) 1 = h.Opcode ∧
    byteAt (writeResponseHeader h) 2 * 2 ^ 8 + byteAt (writeResponseHeader h) 3 =
      h.KeyLength ∧
    byteAt (writeResponseHeader h) 4 = h.ExtraLength ∧
    byteAt (writeResponseHeader h) 5 = h.DataType ∧
    byteAt (writeResponseHeader h) 6 * 2 ^ 8 + byteAt (writeResponseHeader h) 7 =
      h.Status ∧
    byteAt (writeResponseHeader h) 8 * 2 ^ 24 +
      byteAt (writeResponseHeader h) 9 * 2 ^ 16 +
      byteAt (writeResponseHeader h) 10 * 2 ^ 8 +
      byteAt (writeResponseHeader h) 11 = h.TotalBodyLength ∧
    byteAt (writeResponseHeader h) 12 * 2 ^ 24 +
      byteAt (writeResponseHeader h) 13 * 2 ^ 16 +
      byteAt (writeResponseHeader h) 14 * 2 ^ 8 +
      byteAt (writeResponseHeader h) 15 = h.Opaque ∧
    byteAt (writeResponseHeader h) 16 * 2 ^ 56 +
      byteAt (writeResponseHeader h) 17 * 2 ^ 48 +
      byteAt (writeResponseHeader h) 18 * 2 ^ 40 +
      byteAt (writeResponseHeader h) 19 * 2 ^ 32 +
      byteAt (writeResponseHeader h) 20 * 2 ^ 24 +
      byteAt (writeResponseHeader h) 21 * 2 ^ 16 +
      byteAt (writeResponseHeader h) 22 * 2 ^ 8 +
      byteAt (writeResponseHeader h) 23 = h.CAS := by
  obtain ⟨hm, ho, hkl, he, hd, hst, ht, hop, hc⟩ := hw
  unfold U8 U16 U32 U64 at *
  norm_num at *
  refine ⟨rfl, rfl, rfl, ?_, rfl, rfl, ?_, ?_, ?_, ?_⟩ <;>
    simp only [writeResponseHeader, byteAt, List.getD, GetNthByteFromUint16,
      GetNthByteFromUint32, Nat.shiftRight_eq_div_pow, and_255_eq_mod,
      and_65535_eq_mod, and_u32_eq_mod, U8, U16, U32,
      List.getElem?_cons_zero, List.getElem?_cons_succ, Option.getD_some] <;>
    norm_num <;>
    omega

theorem GetFromSimpleKV_mem (s : KVState) (key : List Nat) (now : Int)
    (val : SimpleValue) (h : (GetFromSimpleKV s key now).1 = some val) :
    s.simplekvMap key = some val := by
  cases hm : s.simplekvMap key with
  | none => simp [GetFromSimpleKV, hm] at h
  | some v =>
    by_cases ht : v.TTL ≠ 0 ∧ v.TTL < now
    · simp [GetFromSimpleKV, hm, ht] at h
    · simp [GetFromSimpleKV, hm, ht] at h
      exact congrArg some h

theorem GetNthByteFromUint32_eq (v : Nat) (hv : v < U32) :
    GetNthByteFromUint32 v 0 = v / 2 ^ 24 ∧
    GetNthByteFromUint32 v 1 = v / 2 ^ 16 % 256 ∧
    GetNthByteFromUint32 v 2 = v / 2 ^ 8 % 256 ∧
    GetNthByteFromUint32 v 3 = v % 256 := by
  unfold U32 at hv
  simp only [GetNthByteFromUint32, GetNthByteFromUint16,
    Nat.shiftRight_eq_div_pow, and_255_eq_mod, and_65535_eq_mod, U8, U16]
  norm_num
  omega

/-- C2: the response of the GET family. For a valid GET-family request
(extra length 0, nonzero key length, total body length equal to the key
length): on a miss a quiet opcode (GetQ/GetKQ) emits nothing while a
non-quiet opcode emits status `KeyNotFound` with body the 9 ASCII bytes of
`"Not found"`, `total_body_length` 9, zero extra length, key length and
CAS; on a hit the response has status `NoError`, extra length 4, the
entry's CAS, and body the 4-byte big-endian flag, then the request key
exactly when the opcode is GetK/GetKQ (with the header key length set to
the key's length, else 0), then the raw value, with total body length
`4 + key_length_out + len(raw)`. -/
theorem GetHandler_spec (header : RequestHeader) (key : List Nat) (now : Int)
    (s : KVState) (hv : header.Wf) (hs : s.Wf)
    (hop : header.Opcode = OpGet ∨ header.Opcode = OpGetQ ∨
      header.Opcode = OpGetK ∨ header.Opcode = OpGetKQ)
    (he : header.ExtraLength = 0) (hk : 0 < header.KeyLength)
    (ht : header.TotalBodyLength = header.KeyLength)
    (hkey : key.length = header.KeyLength) :
    ((GetFromSimpleKV s key now).1 = none →
      ((header.Opcode = OpGetQ ∨ header.Opcode = OpGetKQ) →
        GetHandler header key now s = .ok (none, (GetFromSimpleKV s key now).2)) ∧
      (¬ (header.Opcode = OpGetQ ∨ header.Opcode = OpGetKQ) →
        GetHandler header key now s = .ok (some
          { header := { Magic := MagicResponse, Opcode := header.Opcode,
                        KeyLength := 0, ExtraLength := 0, DataType := 0,
                        Status := CodeKeyNotFound, TotalBodyLength := 9,
                        Opaque := header.Opaque, CAS := 0 },
            body := asciiBytes "Not found" }, (GetFromSimpleKV s key now).2))) ∧
    (∀ val, (GetFromSimpleKV s key now).1 = some val →
      GetHandler header key now s = .ok (some
        { header := { Magic := MagicResponse, Opcode := header.Opcode,
                      KeyLength :=
                        if header.Opcode = OpGetK ∨ header.Opcode = OpGetKQ
                        then key.length else 0,
                      ExtraLength := 4, DataType := 0, Status := CodeNoError,
                      TotalBodyLength := 4 +
                        (if header.Opcode = OpGetK ∨ header.Opcode = OpGetKQ
                         then key.length else 0) + val.RawData.length,
                      Opaque := header.Opaque, CAS := val.CAS },
          body := [val.Flag / 2 ^ 24, val.Flag / 2 ^ 16 % 256,
                   val.Flag / 2 ^ 8 % 256, val.Flag % 256]
                  ++ (if header.Opcode = OpGetK ∨ header.Opcode = OpGetKQ
                      then key else [])
                  ++ val.RawData }, (GetFromSimpleKV s key now).2)) := by
  obtain ⟨hvm, hvo, hvk, hve, hvd, hvv, hvt, hvop, hvc⟩ := hv
  have hval1 : ¬ header.ExtraLength > 0 := by omega
  have hval2 : ¬ header.KeyLength = 0 := by omega
  have hval3 : ¬ header.TotalBodyLength ≠ header.KeyLength + header.ExtraLength := by
    omega
  rcases hG : GetFromSimpleKV s key now with ⟨res, s1⟩
  constructor
  · intro hres
    have hres2 : res = none := hres
    subst hres2
    constructor
    · intro hq
      simp only [GetHandler, if_neg hval1, if_neg hval2, if_neg hval3, hG,
        if_pos hq]
    · intro hq
      simp only [GetHandler, if_neg hval1, if_neg hval2, if_neg hval3, hG,
        if_neg hq]
      rfl
  · intro val hres
    have hres2 : res = some val := hres
    subst hres2
    have hmem := GetFromSimpleKV_mem s key now val (by rw [hG])
    obtain ⟨hF, hC, hR⟩ := hs key val hmem
    have hnth := GetNthByteFromUint32_eq val.Flag hF
    by_cases hgk : header.Opcode = OpGetK ∨ header.Opcode = OpGetKQ
    · have hklo : key.length % U16 = key.length := by
        rw [hkey]
        exact Nat.mod_eq_of_lt hvk
      have htot : (val.RawData.length % U32 + 4 + key.length) % U32 =
          4 + key.length + val.RawData.length := by
        unfold U32 MaxReqLen at *
        omega
      have hpos : key.length > 0 := by omega
      simp only [GetHandler, if_neg hval1, if_neg hval2, if_neg hval3, hG,
        if_pos hgk, hklo, htot, hnth.1, hnth.2.1, hnth.2.2.1, hnth.2.2.2,
        if_pos hpos]
    · have htot : (val.RawData.length % U32 + 4 + 0) % U32 =
          4 + 0 + val.RawData.length := by
        unfold U32 MaxReqLen at *
        omega
      simp only [GetHandler, if_neg hval1, if_neg hval2, if_neg hval3, hG,
        if_neg hgk, htot, hnth.1, hnth.2.1, hnth.2.2.1, hnth.2.2.2]
      norm_num

/-! ### Concrete witnesses -/

theorem wState_wf : wState.Wf := by
  intro k v h
  simp only [wState, mapInsert] at h
  by_cases hk : k = wKey
  · rw [if_pos hk] at h
    cases h
    subst hk
    decide
  · rw [if_neg hk] at h
    cases h

/-- C1 at a concrete input: a Set with nonzero expected CAS 7 on the absent
key of the empty store succeeds and inserts the candidate stamped with
CAS 1. -/
theorem SetToSimpleKV_spec_witness :
    initialState.simplekvMap wKey = none ∧
    (SetToSimpleKV initialState wKey wVal 7 false).1.2.2 = true ∧
    (SetToSimpleKV initialState wKey wVal 7 false).2.simplekvMap wKey =
      some { wVal with CAS := 1 } := by
  obtain ⟨-, -, -, -, -, h6⟩ := SetToSimpleKV_spec initialState wKey wVal 7 false
  have h := h6 rfl rfl (by decide)
  refine ⟨rfl, h.1, ?_⟩
  rw [h.2]
  decide

/-- C2 at a concrete input: a GetK of the present key `wKey` answers with
the entry, flag bytes, key and value. -/
theorem GetHandler_spec_witness :
    (GetFromSimpleKV wState wKey 30).1 = some wEntry ∧
    GetHandler wGetHeader wKey 30 wState = .ok (some
      { header := { Magic := MagicResponse, Opcode := wGetHeader.Opcode,
                    KeyLength :=
                      if wGetHeader.Opcode = OpGetK ∨ wGetHeader.Opcode = OpGetKQ
                      then wKey.length else 0,
                    ExtraLength := 4, DataType := 0, Status := CodeNoError,
                    TotalBodyLength := 4 +
                      (if wGetHeader.Opcode = OpGetK ∨ wGetHeader.Opcode = OpGetKQ
                       then wKey.length else 0) + wEntry.RawData.length,
                    Opaque := wGetHeader.Opaque, CAS := wEntry.CAS },
        body := [wEntry.Flag / 2 ^ 24, wEntry.Flag / 2 ^ 16 % 256,
                 wEntry.Flag / 2 ^ 8 % 256, wEntry.Flag % 256]
                ++ (if wGetHeader.Opcode = OpGetK ∨ wGetHeader.Opcode = OpGetKQ
                    then wKey else [])
                ++ wEntry.RawData }, (GetFromSimpleKV wState wKey 30).2) := by
  refine ⟨rfl, ?_⟩
  exact (GetHandler_spec wGetHeader wKey 30 wState
    (by unfold RequestHeader.Wf; decide) wState_wf
    (by decide) rfl (by decide) rfl rfl).2 wEntry rfl

/-- C3 at a concrete input: a Set with raw TTL 0 stores an entry with
TTL deadline 0 under the parsed key. -/
theorem setHandler_ttl_witness :
    wSetHeader.ExtraLength = 8 ∧ wSetHeader.KeyLength ≠ 0 ∧
    SetHandler wSetHeader wSetBody 30 initialState = .ok (wSetOut, wSetState) ∧
    wSetState.simplekvMap (parseSetBody wSetHeader.KeyLength wSetBody 30).1 =
      some { (parseSetBody wSetHeader.KeyLength wSetBody 30).2 with
             CAS := nextCasID initialState.casID } ∧
    (parseSetBody wSetHeader.KeyLength wSetBody 30).2.TTL = 0 := by
  refine ⟨rfl, by decide, rfl, ?_, by decide⟩
  exact (setHandler_ttl).2 wSetHeader wSetBody 30 initialState wSetOut wSetState
    rfl (by decide) rfl (Or.inr ⟨_, rfl, rfl⟩)

/-- C4 at a concrete input: reading `wKey` at second 30 deletes the entry
whose deadline was second 10 and reports a miss. -/
theorem expiry_lazy_witness :
    wExpState.simplekvMap wKey = some { wVal with TTL := 10, CAS := 3 } ∧
    GetFromSimpleKV wExpState wKey 30 =
      (none, { wExpState with simplekvMap := mapDelete wExpState.simplekvMap wKey }) ∧
    mapDelete wExpState.simplekvMap wKey wKey = none := by
  have h := (expiry_lazy).1 wExpState wKey 30 { wVal with TTL := 10, CAS := 3 }
    rfl (by decide) (by decide)
  exact ⟨rfl, h.1, h.2⟩

/-- C5 at a concrete input: adding to the present key `wKey` fails and
leaves the state untouched. -/
theorem AddToSimpleKV_spec_witness :
    wState.simplekvMap wKey = some wEntry ∧
    AddToSimpleKV wState wKey wVal = ((wVal, false), wState) := by
  refine ⟨rfl, ?_⟩
  exact (AddToSimpleKV_spec).1 wState wKey wVal wEntry rfl

/-- C6 at a concrete input: the successful non-quiet Set `wSetHeader` emits
an empty-body `NoError` response carrying the freshly stored CAS. -/
theorem SetHandler_emission_witness :
    SetHandler wSetHeader wSetBody 30 initialState = .ok (wSetOut, wSetState) ∧
    setSuccessResp wSetHeader (nextCasID initialState.casID) = some
      { header := { Magic := MagicResponse, Opcode := wSetHeader.Opcode,
                    KeyLength := 0, ExtraLength := 0, DataType := 0,
                    Status := CodeNoError, TotalBodyLength := 0,
                    Opaque := wSetHeader.Opaque,
                    CAS := nextCasID initialState.casID },
        body := [] } := by
  have h := SetHandler_emission wSetHeader wSetBody 30 initialState rfl (by decide)
  exact ⟨rfl, h.2.1 (by decide) _⟩

/-- C7 at a concrete input: the well-formed request bytes `wReqBytes`
parse without error. -/
theorem parseRequestHeader_spec_witness :
    wReqBytes.length = 24 ∧ (∀ x ∈ wReqBytes, x < 256) ∧
    ¬ (∃ e, parseRequestHeader wReqBytes = .error e) := by
  have h := parseRequestHeader_spec wReqBytes (by decide) (by decide)
  refine ⟨by decide, by decide, ?_⟩
  rw [h.1]
  decide

/-- C8 at a concrete input: adding to the empty store preserves the
nonzero-CAS invariant, and the counter step from 5 is strictly
increasing. -/
theorem cas_invariant_witness :
    NoZeroCAS (AddToSimpleKV initialState wKey wVal).2 ∧
    (5 : Nat) + 1 < U64 ∧ (5 : Nat) < nextCasID 5 := by
  obtain ⟨h1, h2, -, -, -, -, -, h8⟩ := cas_invariant
  exact ⟨h2 initialState wKey wVal h1, by decide, h8 5 (by decide)⟩

/-- C9 at a concrete input: the serialized `wRespHeader` decodes back to
its key length and CAS. -/
theorem writeResponseHeader_roundtrip_witness :
    (writeResponseHeader wRespHeader).length = 24 ∧
    byteAt (writeResponseHeader wRespHeader) 2 * 2 ^ 8 +
      byteAt (writeResponseHeader wRespHeader) 3 = wRespHeader.KeyLength ∧
    byteAt (writeResponseHeader wRespHeader) 16 * 2 ^ 56 +
      byteAt (writeResponseHeader wRespHeader) 17 * 2 ^ 48 +
      byteAt (writeResponseHeader wRespHeader) 18 * 2 ^ 40 +
      byteAt (writeResponseHeader wRespHeader) 19 * 2 ^ 32 +
      byteAt (writeResponseHeader wRespHeader) 20 * 2 ^ 24 +
      byteAt (writeResponseHeader wRespHeader) 21 * 2 ^ 16 +
      byteAt (writeResponseHeader wRespHeader) 22 * 2 ^ 8 +
      byteAt (writeResponseHeader wRespHeader) 23 = wRespHeader.CAS := by
  have h := writeResponseHeader_roundtrip wRespHeader
    (by unfold ResponseHeader.Wf; decide)
  exact ⟨h.1, h.2.2.2.1, h.2.2.2.2.2.2.2.2.2⟩

/-- C10 at a concrete input: a failed add (key exists) and a failed set
(CAS mismatch) leave `wState` exactly as it was. -/
theorem mutation_failure_pure_witness :
    (AddToSimpleKV wState wKey wVal).1.2 = false ∧
    (AddToSimpleKV wState wKey wVal).2 = wState ∧
    (SetToSimpleKV wState wKey wVal 99 false).1.2.2 = false ∧
    (SetToSimpleKV wState wKey wVal 99 false).2 = wState := by
  obtain ⟨h1, -, h3⟩ := mutation_failure_pure wState wKey wVal 99 false
  exact ⟨by decide, h1 (by decide), by decide, h3 (by decide)⟩

end Memcached
